import Mathlib

/-!
Verification of the filter-expression compiler of the api-query-builder
repository. The JavaScript sources (src/utils/filterEncoder.js,
src/utils/apiClient.js and src/utils/attributeFetcher.js) are shallowly
embedded below: JS strings become `String`, JS numbers become exact
rationals (`Rat`; IEEE-754 rounding, `Infinity`/`NaN` payloads and JS
shortest-round-trip number printing are not modelled — no theorem in this
file evaluates a non-integer number), JS `undefined`/`null` become
`Option`/an explicit `undef` constructor, and JS objects produced by the
compiler become the inductive `Json`.
-/

set_option maxRecDepth 4000

namespace ApiQueryBuilder

/-- Whitespace as recognised by the JavaScript runtime (String.prototype.trim,
parseInt, parseFloat): tab, LF, VT, FF, CR, space, NBSP, Ogham space mark,
the Unicode space separators U+2000–U+200A, LS, PS, NNBSP, MMSP, ideographic
space and the BOM. -/
def jsIsWhitespaceChar (c : Char) : Bool :=
  decide (c.toNat = 9 ∨ c.toNat = 10 ∨ c.toNat = 11 ∨ c.toNat = 12 ∨ c.toNat = 13 ∨
    c.toNat = 32 ∨ c.toNat = 160 ∨ c.toNat = 5760 ∨
    (8192 ≤ c.toNat ∧ c.toNat ≤ 8202) ∨ c.toNat = 8232 ∨ c.toNat = 8233 ∨
    c.toNat = 8239 ∨ c.toNat = 8287 ∨ c.toNat = 12288 ∨ c.toNat = 65279)

/-- Drop JS whitespace from both ends of a character list
(String.prototype.trim). -/
def trimChars (cs : List Char) : List Char :=
  ((cs.dropWhile jsIsWhitespaceChar).reverse.dropWhile jsIsWhitespaceChar).reverse

/-- JavaScript String.prototype.trim. -/
def jsTrim (s : String) : String :=
  String.mk (trimChars s.data)

/-- JavaScript String.prototype.split with a single-character separator:
splits into the (possibly empty) chunks between occurrences of `sep`;
the empty string splits to one empty chunk. -/
def splitOnChar (sep : Char) (cs : List Char) : List (List Char) :=
  cs.foldr
    (fun c acc =>
      if c = sep then [] :: acc
      else
        match acc with
        | [] => [[c]]
        | g :: rest => (c :: g) :: rest)
    [[]]

/-- ASCII lower-casing of one character. JavaScript's toLowerCase also maps
non-ASCII letters; the strings it is applied to in this code base (attribute
type names, boolean keywords) are compared against ASCII literals only. -/
def asciiLowerChar (c : Char) : Char :=
  if 65 ≤ c.toNat ∧ c.toNat ≤ 90 then Char.ofNat (c.toNat + 32) else c

/-- JavaScript String.prototype.toLowerCase restricted to ASCII. -/
def jsToLowerCase (s : String) : String :=
  String.mk (s.data.map asciiLowerChar)

/-- ASCII decimal digit test. -/
def isAsciiDigit (c : Char) : Bool :=
  decide (48 ≤ c.toNat ∧ c.toNat ≤ 57)

/-- Value of a list of ASCII decimal digits, most significant first. -/
def digitsToNat (ds : List Char) : Nat :=
  ds.foldl (fun acc c => acc * 10 + (c.toNat - 48)) 0

/-- JavaScript parseInt(s, 10): skip leading whitespace, optional sign, then
the longest prefix of decimal digits; NaN (here `none`) when that prefix is
empty. The JS result is a double and loses precision above 2^53; here it is
an exact integer — no theorem in this file evaluates such an input. -/
def jsParseInt10 (s : String) : Option Int :=
  let cs := s.data.dropWhile jsIsWhitespaceChar
  let signed : Int × List Char :=
    match cs with
    | c :: rest =>
      if c.toNat = 45 then (-1, rest)
      else if c.toNat = 43 then (1, rest)
      else (1, c :: rest)
    | [] => (1, [])
  let ds := signed.2.takeWhile isAsciiDigit
  if ds.isEmpty then none
  else some (signed.1 * (digitsToNat ds : Int))

/-- JavaScript parseFloat: skip leading whitespace, optional sign, then the
longest prefix shaped digits [. digits] [e|E [sign] digits]; NaN (`none`)
when no digit occurs before the exponent part. The value is modelled as the
exact rational of the literal ('Infinity' and IEEE rounding are not
modelled; no theorem in this file depends on a non-integer value). -/
def jsParseFloat (s : String) : Option Rat :=
  let cs := s.data.dropWhile jsIsWhitespaceChar
  let signed : Rat × List Char :=
    match cs with
    | c :: rest =>
      if c.toNat = 45 then (-1, rest)
      else if c.toNat = 43 then (1, rest)
      else (1, c :: rest)
    | [] => (1, [])
  let ip := signed.2.takeWhile isAsciiDigit
  let afterInt := signed.2.drop ip.length
  let afterDot : Option (List Char) :=
    match afterInt with
    | c :: rest => if c.toNat = 46 then some rest else none
    | [] => none
  let fp :=
    match afterDot with
    | some rest => rest.takeWhile isAsciiDigit
    | none => []
  let afterFrac :=
    match afterDot with
    | some rest => rest.drop fp.length
    | none => afterInt
  if ip.isEmpty && fp.isEmpty then none
  else
    let expVal : Int :=
      match afterFrac with
      | e :: rest =>
        if e.toNat = 101 ∨ e.toNat = 69 then
          let esigned : Int × List Char :=
            match rest with
            | c :: r2 =>
              if c.toNat = 45 then (-1, r2)
              else if c.toNat = 43 then (1, r2)
              else (1, c :: r2)
            | [] => (1, [])
          let eds := esigned.2.takeWhile isAsciiDigit
          if eds.isEmpty then 0 else esigned.1 * (digitsToNat eds : Int)
        else 0
      | [] => 0
    let mant : Rat :=
      signed.1 * ((digitsToNat ip : Rat) + (digitsToNat fp : Rat) / ((10 : Rat) ^ fp.length))
    some (if 0 ≤ expVal then mant * (10 : Rat) ^ expVal.toNat
          else mant / (10 : Rat) ^ (-expVal).toNat)

/-- JSON values produced by the filter compiler. `undef` stands for the
JavaScript value `undefined`: JSON.stringify drops object entries whose
value is undefined and renders undefined array elements as null. -/
inductive Json where
  | str (s : String)
  | num (q : Rat)
  | bool (b : Bool)
  | arr (elems : List Json)
  | obj (fields : List (String × Json))
  | undef

/-- Multiplicity of the factor `p` in `n`, with explicit fuel. -/
def factorMultiplicity (p n fuel : Nat) : Nat :=
  match fuel with
  | 0 => 0
  | fuel' + 1 =>
    if 2 ≤ p ∧ 0 < n ∧ n % p = 0 then factorMultiplicity p (n / p) fuel' + 1 else 0

/-- Pad a numeral string with leading zeros to the given width. -/
def padLeftZeros (s : String) (w : Nat) : String :=
  if s.length < w then String.mk (List.replicate (w - s.length) (Char.ofNat 48)) ++ s else s

/-- Decimal rendering of a JavaScript number modelled as an exact rational.
Integers print as JS prints them; a fraction whose denominator divides a
power of ten prints as its exact finite decimal expansion. JS exponent
notation and shortest-round-trip printing are not modelled, and the final
fallback (printing numerator and denominator) is unreachable for numbers
produced by jsParseInt10/jsParseFloat; every number a theorem in this file
evaluates is an integer. -/
def jsNumToString (q : Rat) : String :=
  if q.den = 1 then toString q.num
  else
    let a := factorMultiplicity 2 q.den q.den
    let b := factorMultiplicity 5 q.den q.den
    let k := max a b
    if 2 ^ a * 5 ^ b = q.den then
      let scaled := q.num.natAbs * 10 ^ k / q.den
      let sgn := if q.num < 0 then "-" else ""
      sgn ++ toString (scaled / 10 ^ k) ++ "." ++ padLeftZeros (toString (scaled % 10 ^ k)) k
    else
      toString q.num ++ "/" ++ toString q.den

/-- Lower-case hexadecimal digit. -/
def hexDigitLower (n : Nat) : Char :=
  if n < 10 then Char.ofNat (48 + n) else Char.ofNat (87 + n)

/-- JSON.stringify's escaping of one character inside a string literal:
quote, backslash and the named control escapes, then \u00xx for the
remaining control characters, everything else verbatim. -/
def escapeJsonChar (c : Char) : String :=
  if c.toNat = 34 then "\\\""
  else if c.toNat = 92 then "\\\\"
  else if c.toNat = 8 then "\\b"
  else if c.toNat = 12 then "\\f"
  else if c.toNat = 10 then "\\n"
  else if c.toNat = 13 then "\\r"
  else if c.toNat = 9 then "\\t"
  else if c.toNat < 32 then
    "\\u00" ++ String.mk [hexDigitLower (c.toNat / 16), hexDigitLower (c.toNat % 16)]
  else String.singleton c

/-- A JSON string literal: quotes around the escaped text. -/
def quoteJsonString (s : String) : String :=
  "\"" ++ String.join (s.data.map escapeJsonChar) ++ "\""

/-- Comma-join rendered pieces, as compact JSON.stringify does. -/
def joinComma (parts : List String) : String :=
  String.intercalate "," parts

/-- Whether a Json value is the undefined marker. -/
def isUndef : Json → Bool
  | Json.undef => true
  | _ => false

mutual

/-- Compact JSON.stringify. An undefined array element renders as null; an
object entry with undefined value is dropped. (A top-level undefined never
reaches this function from the compiler, whose nodes are objects.) -/
def jsonStringify : Json → String
  | Json.str s => quoteJsonString s
  | Json.num q => jsNumToString q
  | Json.bool b => if b then "true" else "false"
  | Json.arr elems => "[" ++ joinComma (renderElems elems) ++ "]"
  | Json.obj fields => "\x7b" ++ joinComma (renderFields fields) ++ "\x7d"
  | Json.undef => "null"

/-- Rendered elements of a JSON array, in order. -/
def renderElems : List Json → List String
  | [] => []
  | x :: xs => jsonStringify x :: renderElems xs

/-- Rendered entries of a JSON object, dropping undefined-valued entries as
JSON.stringify does. -/
def renderFields : List (String × Json) → List String
  | [] => []
  | (k, v) :: rest =>
    if isUndef v then renderFields rest
    else (quoteJsonString k ++ ":" ++ jsonStringify v) :: renderFields rest

end

/-- A JavaScript value as it can appear in a condition's `value` slot:
undefined, a string, a number, or a boolean. -/
inductive JsValue where
  | undef
  | str (s : String)
  | num (q : Rat)
  | bool (b : Bool)
  deriving DecidableEq

/-- Injection of a condition value into the compiler's JSON output. -/
def jsValueToJson : JsValue → Json
  | JsValue.undef => Json.undef
  | JsValue.str s => Json.str s
  | JsValue.num q => Json.num q
  | JsValue.bool b => Json.bool b

/-- One item condition inside a list-type condition:
`{field, operator, value}` (the UI-local id plays no role in compilation
and is omitted). A missing field or operator is the empty string, as the UI
initialises them. -/
structure ListItemCondition where
  field : String
  operator : String
  value : JsValue
  deriving DecidableEq

/-- One user-authored condition as filterEncoder.js receives it:
`{field, operator, value, fieldType, isList, listMode, listLogic,
listConditions, schema}`. Slots that JS leaves undefined are `none`
(for `field`, always a string in the UI, the empty string). The schema maps
a sub-field name to its declared type string. -/
structure Condition where
  field : String
  operator : Option String
  value : JsValue
  fieldType : Option String
  isList : Bool
  listMode : Option String
  listLogic : Option String
  listConditions : Option (List ListItemCondition)
  schema : Option (List (String × String))
  deriving DecidableEq

/-- JavaScript `a || d` for an optional string: the default replaces a
missing or empty (falsy) string. -/
def jsOrDefault (o : Option String) (d : String) : String :=
  match o with
  | none => d
  | some s => if s = "" then d else s

/-- The string JS uses when an optional operator is spliced in as an object
key (`{ [operator]: v }`): a missing operator coerces to "undefined". -/
def operatorKey : Option String → String
  | none => "undefined"
  | some s => s

/-- buildNestedObject of filterEncoder.js: split the path on the dots and
fold from the right — the deepest segment maps to the value, each enclosing
segment wraps the previous result. (The source's single-segment early
return and its explicit backwards loop both compute this right fold.) -/
def buildNestedObject (path : String) (value : Json) : Json :=
  let parts := (splitOnChar (Char.ofNat 46) path.data).map String.mk
  parts.foldr (fun part acc => Json.obj [(part, acc)]) value

/-- The item-condition validity test of filterEncoder.js (lines 52-54 and
82-84): field and operator truthy, value neither undefined nor the empty
string. -/
def validListItem (lc : ListItemCondition) : Bool :=
  decide (lc.field ≠ "" ∧ lc.operator ≠ "" ∧
    lc.value ≠ JsValue.undef ∧ lc.value ≠ JsValue.str "")

/-- Step-1 validity filter of buildFilterString (filterEncoder.js lines
41-69): drop a condition with empty field; a list condition needs a
nonempty listConditions array with at least one valid item; a flat
condition needs a truthy operator, and a value unless the operator is
#exists or #notExist. -/
def validCondition (c : Condition) : Bool :=
  if c.field = "" then false
  else if c.fieldType = some "list" ∨ c.isList = true then
    match c.listConditions with
    | none => false
    | some lcs => if lcs.length = 0 then false else lcs.any validListItem
  else if c.operator = none ∨ c.operator = some "" then false
  else if c.operator = some "#exists" ∨ c.operator = some "#notExist" then true
  else decide (c.value ≠ JsValue.undef ∧ c.value ≠ JsValue.str "")

/-- The split-trim-drop pipeline applied to a comma-separated raw value
(filterEncoder.js lines 97 and 158): split on ',', trim every piece, drop
the pieces that are empty after trimming. -/
def splitTrimDropEmpty (s : String) : List String :=
  ((splitOnChar (Char.ofNat 44) s.data).map (fun g => String.mk (trimChars g))).filter
    (fun p => decide (p ≠ ""))

/-- Element coercion for an integer-typed field (filterEncoder.js lines
104-107): parseInt base 10, keep the raw string on NaN. -/
def coerceIntElem (item : String) : Json :=
  match jsParseInt10 item with
  | some n => Json.num (n : Rat)
  | none => Json.str item

/-- Element coercion for a decimal/number-typed field (filterEncoder.js
lines 109-111): parseFloat, keep the raw string on NaN. -/
def coerceFloatElem (item : String) : Json :=
  match jsParseFloat item with
  | some q => Json.num q
  | none => Json.str item

/-- Element coercion for a boolean-typed field (filterEncoder.js lines
114-119): case-insensitive true/1/yes and false/0/no, keep the raw string
otherwise. -/
def coerceBoolElem (item : String) : Json :=
  let lower := jsToLowerCase item
  if lower = "true" ∨ lower = "1" ∨ lower = "yes" then Json.bool true
  else if lower = "false" ∨ lower = "0" ∨ lower = "no" then Json.bool false
  else Json.str item

/-- The #in/#notIn value of a flat condition (filterEncoder.js lines
153-179): a string value is split-trimmed-filtered and then mapped by the
coercion matching the condition's fieldType (compared verbatim, without
lower-casing, as the source does here); a non-string value passes through
unchanged. -/
def parseInValue (fieldType : Option String) (value : JsValue) : Json :=
  match value with
  | JsValue.str s =>
    let arrayValue := splitTrimDropEmpty s
    if fieldType = some "integer" then Json.arr (arrayValue.map coerceIntElem)
    else if fieldType = some "decimal" ∨ fieldType = some "number" then
      Json.arr (arrayValue.map coerceFloatElem)
    else if fieldType = some "boolean" then Json.arr (arrayValue.map coerceBoolElem)
    else Json.arr (arrayValue.map Json.str)
  | v => jsValueToJson v

/-- Lookup `schema?.[field]?.type` (filterEncoder.js line 100). -/
def schemaLookupType (schema : Option (List (String × String))) (field : String) :
    Option String :=
  match schema with
  | none => none
  | some entries => (entries.find? (fun e => decide (e.fst = field))).map Prod.snd

/-- The value of one list item condition (filterEncoder.js lines 92-123):
for #in/#notIn a string value is split-trimmed-filtered, then, when the
parent schema declares a truthy type for the item's field, mapped by the
coercion matching that type lower-cased; otherwise the item's value passes
through unchanged. -/
def coerceListItemValue (schema : Option (List (String × String)))
    (lc : ListItemCondition) : Json :=
  if lc.operator = "#in" ∨ lc.operator = "#notIn" then
    match lc.value with
    | JsValue.str s =>
      let items := splitTrimDropEmpty s
      match schemaLookupType schema lc.field with
      | some t =>
        if t = "" then Json.arr (items.map Json.str)
        else
          let normalizedType := jsToLowerCase t
          if normalizedType = "integer" then Json.arr (items.map coerceIntElem)
          else if normalizedType = "decimal" ∨ normalizedType = "number" then
            Json.arr (items.map coerceFloatElem)
          else if normalizedType = "boolean" then Json.arr (items.map coerceBoolElem)
          else Json.arr (items.map Json.str)
      | none => Json.arr (items.map Json.str)
    | v => jsValueToJson v
  else jsValueToJson lc.value

/-- One item node of a list condition (filterEncoder.js lines 126-130):
`{field: value}` for #eq, `{operator: {field: value}}` otherwise. -/
def compileListItem (schema : Option (List (String × String)))
    (lc : ListItemCondition) : Json :=
  let itemValue := coerceListItemValue schema lc
  if lc.operator = "#eq" then Json.obj [(lc.field, itemValue)]
  else Json.obj [(lc.operator, Json.obj [(lc.field, itemValue)])]

/-- Replace every '.' in a field path by the reserved separator character
U+0001 (filterEncoder.js line 139). -/
def replaceDotsWithSep (s : String) : String :=
  String.mk (s.data.map (fun c => if c.toNat = 46 then Char.ofNat 1 else c))

/-- Per-condition compilation (the map body of filterEncoder.js lines
76-202), producing one JSON node, or none for a list condition without any
valid item condition. -/
def compileCondition (c : Condition) : Option Json :=
  if c.fieldType = some "list" ∧ c.listConditions.isSome then
    let validListConditions := (c.listConditions.getD []).filter validListItem
    if validListConditions.isEmpty then none
    else
      let itemConditions := validListConditions.map (compileListItem c.schema)
      let itemLogicOperator := if c.listLogic = some "or" then "#or" else "#and"
      let listItemsWithLogic := Json.obj [(itemLogicOperator, Json.arr itemConditions)]
      let listFieldName := replaceDotsWithSep c.field
      let mode := jsOrDefault c.listMode "#any"
      some (Json.obj [(mode, Json.obj [(listFieldName, listItemsWithLogic)])])
  else
    let op := operatorKey c.operator
    if op = "#exists" ∨ op = "#notExist" then
      some (Json.obj [(op, buildNestedObject c.field (Json.bool true))])
    else if op = "#in" ∨ op = "#notIn" then
      some (Json.obj [(op, buildNestedObject c.field (parseInValue c.fieldType c.value))])
    else if c.fieldType = some "array" then
      some (buildNestedObject c.field (Json.obj [(op, jsValueToJson c.value)]))
    else
      let fieldObject := buildNestedObject c.field (jsValueToJson c.value)
      if op = "#eq" then some fieldObject
      else some (Json.obj [(op, fieldObject)])

/-- Steps 2-4 of buildFilterString on the already-filtered conditions
(filterEncoder.js lines 76-218): compile each, drop the null nodes, return
the single node's text verbatim or wrap multiple nodes in #or/#and. -/
def buildFilterFromValid (validConditions : List Condition) (logic : String) : String :=
  if validConditions.isEmpty then ""
  else
    let filterConditions := (validConditions.map compileCondition).filterMap id
    match filterConditions with
    | [] => ""
    | [single] => jsonStringify single
    | multiple =>
      jsonStringify (Json.obj [(if logic = "or" then "#or" else "#and", Json.arr multiple)])

/-- buildFilterString of filterEncoder.js: empty input or no surviving
condition gives the empty string, otherwise the combined filter's compact
JSON text. -/
def buildFilterString (conditions : List Condition) (logic : String) : String :=
  if conditions.isEmpty then ""
  else buildFilterFromValid (conditions.filter validCondition) logic

/-- Characters encodeURIComponent leaves verbatim: ASCII letters, digits,
and - _ . ! ~ * ' ( ). -/
def isUnreservedURIChar (c : Char) : Bool :=
  decide ((65 ≤ c.toNat ∧ c.toNat ≤ 90) ∨ (97 ≤ c.toNat ∧ c.toNat ≤ 122) ∨
    (48 ≤ c.toNat ∧ c.toNat ≤ 57) ∨ c.toNat = 45 ∨ c.toNat = 95 ∨ c.toNat = 46 ∨
    c.toNat = 33 ∨ c.toNat = 126 ∨ c.toNat = 42 ∨ c.toNat = 39 ∨ c.toNat = 40 ∨
    c.toNat = 41)

/-- Upper-case hexadecimal digit. -/
def hexDigitUpper (n : Nat) : Char :=
  if n < 10 then Char.ofNat (48 + n) else Char.ofNat (55 + n)

/-- UTF-8 bytes of one Unicode scalar value. -/
def utf8Bytes (c : Char) : List Nat :=
  let n := c.toNat
  if n < 128 then [n]
  else if n < 2048 then [192 + n / 64, 128 + n % 64]
  else if n < 65536 then [224 + n / 4096, 128 + n / 64 % 64, 128 + n % 64]
  else [240 + n / 262144, 128 + n / 4096 % 64, 128 + n / 64 % 64, 128 + n % 64]

/-- Percent-encoding of one byte, upper-case hex. -/
def percentEncodeByte (b : Nat) : String :=
  String.mk [Char.ofNat 37, hexDigitUpper (b / 16), hexDigitUpper (b % 16)]

/-- JavaScript encodeURIComponent: unreserved characters verbatim, every
other character as the percent-encoded bytes of its UTF-8 encoding. -/
def jsEncodeURIComponent (s : String) : String :=
  String.join (s.data.map (fun c =>
    if isUnreservedURIChar c then String.singleton c
    else String.join ((utf8Bytes c).map percentEncodeByte)))

/-- encodeFilterString of filterEncoder.js: the empty (falsy) string stays
empty, everything else is encodeURIComponent'd. -/
def encodeFilterString (filterString : String) : String :=
  if filterString = "" then "" else jsEncodeURIComponent filterString

/-- buildAndEncodeFilter of filterEncoder.js: the pair of the raw filter
text and its URL-encoded form. -/
def buildAndEncodeFilter (conditions : List Condition) (logic : String) : String × String :=
  let rawFilter := buildFilterString conditions logic
  (rawFilter, encodeFilterString rawFilter)

/-- One operator descriptor of the catalog: code, human label, description
and the attribute types it applies to. -/
structure FilterOperator where
  value : String
  label : String
  description : String
  types : List String
  deriving DecidableEq

/-- FILTER_OPERATORS of filterEncoder.js: the fixed, ordered operator
catalog. -/
def FILTER_OPERATORS : List FilterOperator :=
  [ { value := "#eq", label := "equals",
      description := "Equals to a specified value",
      types := ["string", "integer", "decimal", "date", "number", "boolean", "date_time"] },
    { value := "#ne", label := "not equals",
      description := "Not equal to a specified value",
      types := ["string", "integer", "decimal", "date", "number", "boolean", "date_time"] },
    { value := "#contains", label := "contains",
      description := "Contains a specified value",
      types := ["string", "array"] },
    { value := "#notContain", label := "not contain",
      description := "Does not contain a specified value",
      types := ["string", "array"] },
    { value := "#startsWith", label := "starts with",
      description := "Starts with a specified value",
      types := ["string"] },
    { value := "#endsWith", label := "ends with",
      description := "Ends with a specified value",
      types := ["string"] },
    { value := "#gt", label := "greater than",
      description := "Is greater than a specified value",
      types := ["integer", "decimal", "date", "number", "date_time"] },
    { value := "#gte", label := "greater than or equal",
      description := "Is greater than or equal to a specified value",
      types := ["integer", "decimal", "date", "number", "date_time"] },
    { value := "#lt", label := "less than",
      description := "Is less than a specified value",
      types := ["integer", "decimal", "date", "number", "date_time"] },
    { value := "#lte", label := "less than or equal",
      description := "Is less than or equal to a specified value",
      types := ["integer", "decimal", "date", "number", "date_time"] },
    { value := "#in", label := "is one of",
      description := "Is equal to one of the values in a list",
      types := ["string", "integer", "decimal", "date", "number", "date_time"] },
    { value := "#notIn", label := "is not one of",
      description := "Is not equal to any of the values in a list",
      types := ["string", "integer", "decimal", "date", "number", "date_time"] },
    { value := "#exists", label := "exists",
      description := "Matches records where the field has a value",
      types := ["string", "integer", "decimal", "date", "number", "array", "boolean", "date_time"] },
    { value := "#notExist", label := "does not exist",
      description := "Matches records where the field does not have a value",
      types := ["string", "integer", "decimal", "date", "number", "array", "boolean", "date_time"] } ]

/-- The string-only operator codes getOperatorsForType excludes for numeric
types. -/
def stringOnlyOperators : List String :=
  ["#contains", "#notContain", "#startsWith", "#endsWith"]

/-- getOperatorsForType of filterEncoder.js: lower-case the attribute type,
map the aliases number→integer and float/double→decimal, then keep the
catalog operators applicable to the mapped type, excluding the string-only
operators when the mapped type is numeric. -/
def getOperatorsForType (attributeType : String) : List FilterOperator :=
  let normalizedType := jsToLowerCase attributeType
  let mappedType :=
    if normalizedType = "number" then "integer"
    else if normalizedType = "float" then "decimal"
    else if normalizedType = "double" then "decimal"
    else normalizedType
  let isNumericType := mappedType = "integer" ∨ mappedType = "decimal"
  FILTER_OPERATORS.filter (fun op =>
    if isNumericType ∧ op.value ∈ stringOnlyOperators then false
    else decide (mappedType ∈ op.types))

/-- Remove every non-ASCII character (the replace(/[^\x00-\x7F]/g, '') of
sanitizeApiKey). -/
def removeNonAsciiChars (s : String) : String :=
  String.mk (s.data.filter (fun c => decide (c.toNat ≤ 127)))

/-- sanitizeApiKey of apiClient.js (identical in the attribute fetcher): a
falsy key gives the empty string; otherwise trim first, then remove every
non-ASCII character. -/
def sanitizeApiKey (apiKey : String) : String :=
  if apiKey = "" then "" else removeNonAsciiChars (jsTrim apiKey)

/-- The Authorization header value testFilterQuery (apiClient.js) sends:
"App " followed by the sanitized key. -/
def testFilterQueryAuthHeader (apiKey : String) : String :=
  "App " ++ sanitizeApiKey apiKey

/-- The Authorization header value fetchStandardAttributes
(attributeFetcher.js line 17) sends: "App " followed by the apiKey as
passed in — this fetcher applies no sanitization. -/
def fetchStandardAttributesAuthHeader (apiKey : String) : String :=
  "App " ++ apiKey

/-- The Authorization header value fetchCustomAttributes
(attributeFetcher.js line 74) sends: "App " followed by the apiKey as
passed in — this fetcher applies no sanitization. -/
def fetchCustomAttributesAuthHeader (apiKey : String) : String :=
  "App " ++ apiKey

/-- Whether a character is ASCII (code point at most 0x7F). -/
def isAsciiChar (c : Char) : Bool :=
  decide (c.toNat ≤ 127)

/-- Per-element coercion of one #in/#notIn list element by the field's
scalar type, as the specification describes it: base-10 integer parse for
'integer', float parse for 'decimal'/'number', boolean keyword recognition
for 'boolean', raw string otherwise and on parse failure. -/
def coerceListElem (fieldType : Option String) (item : String) : Json :=
  if fieldType = some "integer" then coerceIntElem item
  else if fieldType = some "decimal" ∨ fieldType = some "number" then coerceFloatElem item
  else if fieldType = some "boolean" then coerceBoolElem item
  else Json.str item

/-- An incomplete flat condition as the claims characterise it: not
list-typed, and the field is empty, or the operator is empty, or the value
is empty/undefined while the operator is not an existence check. -/
def claimIncompleteFlat (c : Condition) : Prop :=
  (c.fieldType ≠ some "list" ∧ c.isList = false) ∧
  (c.field = "" ∨ c.operator = none ∨ c.operator = some "" ∨
    ((c.value = JsValue.undef ∨ c.value = JsValue.str "") ∧
      c.operator ≠ some "#exists" ∧ c.operator ≠ some "#notExist"))

/-- An incomplete list condition as the claims characterise it: list-typed,
with no item condition whose field, operator and value are all non-empty. -/
def claimIncompleteList (c : Condition) : Prop :=
  (c.fieldType = some "list" ∨ c.isList = true) ∧
  (∀ lc ∈ c.listConditions.getD [], ¬(lc.field ≠ "" ∧ lc.operator ≠ "" ∧
    lc.value ≠ JsValue.undef ∧ lc.value ≠ JsValue.str ""))

/-- An incomplete condition as the claims characterise it. -/
def claimIncomplete (c : Condition) : Prop :=
  claimIncompleteFlat c ∨ claimIncompleteList c

/-- Example condition: firstName equals Ana. -/
def exAnaCondition : Condition :=
  { field := "firstName", operator := some "#eq", value := JsValue.str "Ana",
    fieldType := some "string", isList := false, listMode := none, listLogic := none,
    listConditions := none, schema := none }

/-- Example condition: a dotted field path with equality. -/
def exDottedCondition : Condition :=
  { field := "contactInformation.email.address", operator := some "#eq",
    value := JsValue.str "a@b.com", fieldType := some "string", isList := false,
    listMode := none, listLogic := none, listConditions := none, schema := none }

/-- Example condition: age greater than 30. -/
def exGtCondition : Condition :=
  { field := "age", operator := some "#gt", value := JsValue.num 30,
    fieldType := some "integer", isList := false, listMode := none, listLogic := none,
    listConditions := none, schema := none }

/-- Example list condition: data.ListName, match-any, one item color = red. -/
def exListCondition : Condition :=
  { field := "data.ListName", operator := none, value := JsValue.str "",
    fieldType := some "list", isList := true, listMode := some "#any", listLogic := none,
    listConditions := some [{ field := "color", operator := "#eq", value := JsValue.str "red" }],
    schema := none }

/-- Example condition: city in "a, b ,c". -/
def exInCondition : Condition :=
  { field := "city", operator := some "#in", value := JsValue.str "a, b ,c",
    fieldType := some "string", isList := false, listMode := none, listLogic := none,
    listConditions := none, schema := none }

/-- Example condition: city in " , ," (only commas and whitespace). -/
def exInEmptyCondition : Condition :=
  { field := "city", operator := some "#in", value := JsValue.str " , ,",
    fieldType := some "string", isList := false, listMode := none, listLogic := none,
    listConditions := none, schema := none }

/-- Example condition: tags exists, with no value supplied. -/
def exExistsCondition : Condition :=
  { field := "tags", operator := some "#exists", value := JsValue.undef,
    fieldType := some "array", isList := false, listMode := none, listLogic := none,
    listConditions := none, schema := none }

/-- Example condition: tags exists, with a value supplied (to be ignored). -/
def exExistsValueCondition : Condition :=
  { field := "tags", operator := some "#exists", value := JsValue.str "ignored",
    fieldType := some "array", isList := false, listMode := none, listLogic := none,
    listConditions := none, schema := none }

/-- Example condition on the array-typed tags field with the #eq operator. -/
def exArrayEqCondition : Condition :=
  { field := "tags", operator := some "#eq", value := JsValue.str "vip",
    fieldType := some "array", isList := false, listMode := none, listLogic := none,
    listConditions := none, schema := none }

/-- Example condition on the array-typed tags field with #contains. -/
def exArrayContainsCondition : Condition :=
  { field := "tags", operator := some "#contains", value := JsValue.str "vip",
    fieldType := some "array", isList := false, listMode := none, listLogic := none,
    listConditions := none, schema := none }

/-- Example incomplete condition: an operator but no field. -/
def exNoFieldCondition : Condition :=
  { field := "", operator := some "#eq", value := JsValue.str "x",
    fieldType := some "string", isList := false, listMode := none, listLogic := none,
    listConditions := none, schema := none }

/-- Example incomplete condition: a field and operator but an empty value. -/
def exNoValueCondition : Condition :=
  { field := "city", operator := some "#eq", value := JsValue.str "",
    fieldType := some "string", isList := false, listMode := none, listLogic := none,
    listConditions := none, schema := none }

/-- The catalog's equality operator descriptor, for concrete instantiation. -/
def exEqOperator : FilterOperator :=
  { value := "#eq", label := "equals",
    description := "Equals to a specified value",
    types := ["string", "integer", "decimal", "date", "number", "boolean", "date_time"] }

theorem splitOnChar_cons (sep c : Char) (cs : List Char) :
    splitOnChar sep (c :: cs) =
      if c = sep then [] :: splitOnChar sep cs
      else
        match splitOnChar sep cs with
        | [] => [[c]]
        | g :: rest => (c :: g) :: rest := rfl

theorem splitOnChar_ne_nil (sep : Char) (cs : List Char) : splitOnChar sep cs ≠ [] := by
  induction cs with
  | nil => simp [splitOnChar]
  | cons c cs ih =>
    rw [splitOnChar_cons]
    by_cases h : c = sep
    · simp [h]
    · rw [if_neg h]
      cases hs : splitOnChar sep cs with
      | nil => exact absurd hs ih
      | cons g rest => simp

theorem mem_mem_splitOnChar (sep : Char) (cs : List Char) (P : Char → Prop)
    (h : ∀ c ∈ cs, c = sep ∨ P c) :
    ∀ g ∈ splitOnChar sep cs, ∀ c ∈ g, P c := by
  induction cs with
  | nil =>
    intro g hg c hc
    simp [splitOnChar] at hg
    subst hg
    simp at hc
  | cons a cs ih =>
    intro g hg c hc
    have hrest : ∀ x ∈ cs, x = sep ∨ P x := fun x hx => h x (List.mem_cons_of_mem a hx)
    rw [splitOnChar_cons] at hg
    by_cases has : a = sep
    · rw [if_pos has] at hg
      rcases List.mem_cons.mp hg with h1 | h2
      · subst h1; simp at hc
      · exact ih hrest g h2 c hc
    · rw [if_neg has] at hg
      have haP : P a := (h a (List.mem_cons_self a cs)).resolve_left has
      cases hsplit : splitOnChar sep cs with
      | nil => exact absurd hsplit (splitOnChar_ne_nil sep cs)
      | cons g0 rest =>
        rw [hsplit] at hg
        rcases List.mem_cons.mp hg with h3 | h4
        · subst h3
          rcases List.mem_cons.mp hc with h5 | h6
          · subst h5; exact haP
          · exact ih hrest g0 (hsplit ▸ List.mem_cons_self g0 rest) c h6
        · exact ih hrest g (hsplit ▸ List.mem_cons_of_mem g0 h4) c hc

theorem trimChars_eq_nil (cs : List Char)
    (h : ∀ c ∈ cs, jsIsWhitespaceChar c = true) : trimChars cs = [] := by
  unfold trimChars
  rw [List.dropWhile_eq_nil_iff.mpr h]
  simp

theorem splitTrimDropEmpty_eq_nil (s : String)
    (h : ∀ c ∈ s.data, c = Char.ofNat 44 ∨ jsIsWhitespaceChar c = true) :
    splitTrimDropEmpty s = [] := by
  unfold splitTrimDropEmpty
  rw [List.filter_eq_nil_iff]
  intro p hp
  simp only [List.mem_map] at hp
  obtain ⟨g, hg, rfl⟩ := hp
  have hws : ∀ c ∈ g, jsIsWhitespaceChar c = true :=
    mem_mem_splitOnChar (Char.ofNat 44) s.data (fun c => jsIsWhitespaceChar c = true) h g hg
  rw [trimChars_eq_nil g hws]
  simp

theorem buildFilterString_eq_fromValid (conditions : List Condition) (logic : String) :
    buildFilterString conditions logic =
      buildFilterFromValid (conditions.filter validCondition) logic := by
  unfold buildFilterString
  by_cases h : conditions.isEmpty
  · rw [if_pos h]
    have : conditions = [] := List.isEmpty_iff.mp h
    subst this
    simp [buildFilterFromValid]
  · rw [if_neg h]

/-- C1: a complete flat condition whose fieldType is neither array nor list
and whose operator is none of #exists/#notExist/#in/#notIn compiles to the
right-folded nested-path object for its dotted field with the value as
leaf, emitted as-is for #eq and wrapped as
`{operatorCode: nestedFieldObject}` for every other operator; the condition
also passes the validity filter. -/
theorem c1_scalarCompile (c : Condition) (op : String)
    (hfield : c.field ≠ "")
    (hlist : c.fieldType ≠ some "list") (hisList : c.isList = false)
    (harr : c.fieldType ≠ some "array")
    (hop : c.operator = some op) (hopne : op ≠ "")
    (hex1 : op ≠ "#exists") (hex2 : op ≠ "#notExist")
    (hin1 : op ≠ "#in") (hin2 : op ≠ "#notIn")
    (hval : c.value ≠ JsValue.undef) (hval2 : c.value ≠ JsValue.str "") :
    validCondition c = true ∧
    compileCondition c =
      some (if op = "#eq" then buildNestedObject c.field (jsValueToJson c.value)
            else Json.obj [(op, buildNestedObject c.field (jsValueToJson c.value))]) := by
  constructor
  · unfold validCondition
    rw [if_neg hfield, if_neg (by simp [hlist, hisList]),
      if_neg (by simp [hop, hopne]), if_neg (by simp [hop, hex1, hex2])]
    simp [hval, hval2]
  · unfold compileCondition
    rw [if_neg (by simp [hlist])]
    simp only [hop, operatorKey]
    rw [if_neg (by simp [hex1, hex2]), if_neg (by simp [hin1, hin2]), if_neg harr]
    split_ifs <;> rfl

/-- Witness for C1: the firstName-equals-Ana example compiles to the plain
key-value object (raw text without any operator wrapper), and the dotted
path example compiles to the fully nested object. -/
theorem c1_scalarCompile_witness :
    (validCondition exAnaCondition = true ∧
      compileCondition exAnaCondition = some (Json.obj [("firstName", Json.str "Ana")])) ∧
    compileCondition exDottedCondition =
      some (Json.obj [("contactInformation", Json.obj [("email",
        Json.obj [("address", Json.str "a@b.com")])])]) ∧
    buildFilterString [exAnaCondition] "and" = "\x7b\"firstName\":\"Ana\"\x7d" := by
  refine ⟨⟨?_, ?_⟩, ?_, ?_⟩
  · exact (c1_scalarCompile exAnaCondition "#eq" (by decide) (by decide) (by decide)
      (by decide) rfl (by decide) (by decide) (by decide) (by decide) (by decide)
      (by decide) (by decide)).1
  · exact (c1_scalarCompile exAnaCondition "#eq" (by decide) (by decide) (by decide)
      (by decide) rfl (by decide) (by decide) (by decide) (by decide) (by decide)
      (by decide) (by decide)).2
  · exact (c1_scalarCompile exDottedCondition "#eq" (by decide) (by decide) (by decide)
      (by decide) rfl (by decide) (by decide) (by decide) (by decide) (by decide)
      (by decide) (by decide)).2
  · rfl

/-- C3: a complete condition on an array-typed field whose operator is none
of #exists/#notExist/#in/#notIn compiles with the nesting inverted relative
to the scalar case — the nested-path object is outermost and
`{operatorCode: value}` is its leaf — and this holds for #eq exactly as for
every other such operator (no operator-free emission). -/
theorem c3_arrayCompile (c : Condition) (op : String)
    (hfield : c.field ≠ "")
    (hisList : c.isList = false)
    (harr : c.fieldType = some "array")
    (hop : c.operator = some op) (hopne : op ≠ "")
    (hex1 : op ≠ "#exists") (hex2 : op ≠ "#notExist")
    (hin1 : op ≠ "#in") (hin2 : op ≠ "#notIn")
    (hval : c.value ≠ JsValue.undef) (hval2 : c.value ≠ JsValue.str "") :
    validCondition c = true ∧
    compileCondition c =
      some (buildNestedObject c.field (Json.obj [(op, jsValueToJson c.value)])) := by
  constructor
  · unfold validCondition
    rw [if_neg hfield, if_neg (by simp [harr, hisList]),
      if_neg (by simp [hop, hopne]), if_neg (by simp [hop, hex1, hex2])]
    simp [hval, hval2]
  · unfold compileCondition
    rw [if_neg (by simp [harr])]
    simp only [hop, operatorKey]
    rw [if_neg (by simp [hex1, hex2]), if_neg (by simp [hin1, hin2]), if_pos harr]

/-- Witness for C3: on the array-typed tags field, both #eq and #contains
produce the inverted nesting `{"tags":{op:value}}` — for #eq too, unlike
the scalar case. -/
theorem c3_arrayCompile_witness :
    (validCondition exArrayEqCondition = true ∧
      compileCondition exArrayEqCondition =
        some (Json.obj [("tags", Json.obj [("#eq", Json.str "vip")])])) ∧
    compileCondition exArrayContainsCondition =
      some (Json.obj [("tags", Json.obj [("#contains", Json.str "vip")])]) := by
  refine ⟨⟨?_, ?_⟩, ?_⟩
  · exact (c3_arrayCompile exArrayEqCondition "#eq" (by decide) (by decide) rfl rfl
      (by decide) (by decide) (by decide) (by decide) (by decide) (by decide)
      (by decide)).1
  · exact (c3_arrayCompile exArrayEqCondition "#eq" (by decide) (by decide) rfl rfl
      (by decide) (by decide) (by decide) (by decide) (by decide) (by decide)
      (by decide)).2
  · exact (c3_arrayCompile exArrayContainsCondition "#contains" (by decide) (by decide)
      rfl rfl (by decide) (by decide) (by decide) (by decide) (by decide) (by decide)
      (by decide)).2

/-- C5: a flat condition with non-empty field and operator #exists or
#notExist passes the validity filter regardless of its value (undefined
included) and compiles to `{operatorCode: nestedFieldObject}` with the
literal boolean true as the nested path's leaf. -/
theorem c5_existsCompile (c : Condition) (op : String)
    (hfield : c.field ≠ "")
    (hlist : c.fieldType ≠ some "list") (hisList : c.isList = false)
    (hop : c.operator = some op)
    (hex : op = "#exists" ∨ op = "#notExist") :
    validCondition c = true ∧
    compileCondition c =
      some (Json.obj [(op, buildNestedObject c.field (Json.bool true))]) := by
  have hopne : op ≠ "" := by rcases hex with h | h <;> simp [h]
  constructor
  · unfold validCondition
    rw [if_neg hfield, if_neg (by simp [hlist, hisList]),
      if_neg (by simp [hop, hopne]), if_pos (by simp [hop, hex])]
  · unfold compileCondition
    rw [if_neg (by simp [hlist])]
    simp only [hop, operatorKey]
    rw [if_pos hex]

/-- Witness for C5: #exists on the tags field compiles to
`{"#exists":{"tags":true}}` both with no value at all and with a value
supplied, which is ignored. -/
theorem c5_existsCompile_witness :
    (validCondition exExistsCondition = true ∧
      compileCondition exExistsCondition =
        some (Json.obj [("#exists", Json.obj [("tags", Json.bool true)])])) ∧
    (validCondition exExistsValueCondition = true ∧
      compileCondition exExistsValueCondition =
        some (Json.obj [("#exists", Json.obj [("tags", Json.bool true)])])) ∧
    buildFilterString [exExistsCondition] "and" = "\x7b\"#exists\":\x7b\"tags\":true\x7d\x7d" := by
  refine ⟨?_, ?_, ?_⟩
  · exact c5_existsCompile exExistsCondition "#exists" (by decide) (by decide)
      (by decide) rfl (Or.inl rfl)
  · exact c5_existsCompile exExistsValueCondition "#exists" (by decide) (by decide)
      (by decide) rfl (Or.inl rfl)
  · rfl

theorem parseInValue_str (fieldType : Option String) (s : String) :
    parseInValue fieldType (JsValue.str s) =
      Json.arr ((splitTrimDropEmpty s).map (coerceListElem fieldType)) := by
  by_cases h1 : fieldType = some "integer"
  · simp [parseInValue, coerceListElem, h1]
  · by_cases h2 : fieldType = some "decimal"
    · simp [parseInValue, coerceListElem, h1, h2]
    · by_cases h3 : fieldType = some "number"
      · simp [parseInValue, coerceListElem, h1, h2, h3]
      · by_cases h4 : fieldType = some "boolean"
        · simp [parseInValue, coerceListElem, h1, h2, h3, h4]
        · simp [parseInValue, coerceListElem, h1, h2, h3, h4]

/-- C2: a valid list-type condition compiles by building one item node per
valid item condition ({field: value} for #eq, {operatorCode: {field: value}}
otherwise, the value being the item's coerced value), combining the item
nodes in order under #or when listLogic is 'or' and #and otherwise,
replacing every '.' of the condition's field path by the reserved separator
U+0001, and wrapping the combined node under the #all key for listMode
match-all ('#all') and under #any otherwise. -/
theorem c2_listCompile (c : Condition) (lcs : List ListItemCondition)
    (hfield : c.field ≠ "")
    (hft : c.fieldType = some "list")
    (hlcs : c.listConditions = some lcs)
    (hvalid : lcs.filter validListItem ≠ [])
    (hmode : c.listMode = none ∨ c.listMode = some "#any" ∨ c.listMode = some "#all") :
    validCondition c = true ∧
    compileCondition c =
      some (Json.obj [((if c.listMode = some "#all" then "#all" else "#any"),
        Json.obj [(replaceDotsWithSep c.field,
          Json.obj [((if c.listLogic = some "or" then "#or" else "#and"),
            Json.arr ((lcs.filter validListItem).map (compileListItem c.schema)))])])]) ∧
    ∀ lc ∈ lcs.filter validListItem,
      compileListItem c.schema lc =
        (if lc.operator = "#eq" then Json.obj [(lc.field, coerceListItemValue c.schema lc)]
         else Json.obj [(lc.operator, Json.obj [(lc.field, coerceListItemValue c.schema lc)])]) := by
  have hlne : lcs ≠ [] := by
    intro h
    apply hvalid
    rw [h]
    rfl
  obtain ⟨x, hx⟩ := List.exists_mem_of_ne_nil _ hvalid
  obtain ⟨hxmem, hxp⟩ := List.mem_filter.mp hx
  refine ⟨?_, ?_, ?_⟩
  · unfold validCondition
    rw [if_neg hfield, if_pos (Or.inl hft)]
    simp only [hlcs]
    rw [if_neg (by simp [hlne])]
    exact List.any_eq_true.mpr ⟨x, hxmem, hxp⟩
  · have hmodeEq : jsOrDefault c.listMode "#any" =
        (if c.listMode = some "#all" then "#all" else "#any") := by
      rcases hmode with h | h | h <;> simp [jsOrDefault, h]
    unfold compileCondition
    rw [if_pos ⟨hft, by rw [hlcs]; rfl⟩]
    simp only [hlcs, Option.getD_some]
    rw [if_neg (by simp [hvalid]), hmodeEq]
  · intro lc _
    unfold compileListItem
    split_ifs <;> rfl

/-- Witness for C2: the example list condition on field data.ListName with
listMode match-any and the single item condition color = red compiles to
the claimed node and to the claimed raw JSON text, the '.' of the field
path replaced by the U+0001 separator (escaped as \u0001 by stringify). -/
theorem c2_listCompile_witness :
    validCondition exListCondition = true ∧
    compileCondition exListCondition =
      some (Json.obj [("#any", Json.obj [("data\u0001ListName",
        Json.obj [("#and", Json.arr [Json.obj [("color", Json.str "red")]])])])]) ∧
    buildFilterString [exListCondition] "and" =
      "\x7b\"#any\":\x7b\"data\\u0001ListName\":\x7b\"#and\":[\x7b\"color\":\"red\"\x7d]\x7d\x7d\x7d" := by
  have h := c2_listCompile exListCondition
    [{ field := "color", operator := "#eq", value := JsValue.str "red" }]
    (by decide) rfl rfl (by decide) (Or.inr (Or.inl rfl))
  refine ⟨h.1, ?_, rfl⟩
  rw [h.2.1]
  rfl

/-- C4: a complete flat #in/#notIn condition with a string value compiles to
{operatorCode: nestedFieldObject} whose leaf is the array obtained by
splitting the raw value on ',', trimming each piece, dropping empty pieces,
and coercing each remaining element independently per the field's scalar
type (base-10 integer parse, float parse, boolean keyword recognition,
unparseable elements kept as raw strings). -/
theorem c4_inSplitCompile (c : Condition) (op s : String)
    (hfield : c.field ≠ "")
    (hlist : c.fieldType ≠ some "list") (hisList : c.isList = false)
    (hop : c.operator = some op) (hin : op = "#in" ∨ op = "#notIn")
    (hval : c.value = JsValue.str s) (hs : s ≠ "") :
    validCondition c = true ∧
    compileCondition c =
      some (Json.obj [(op, buildNestedObject c.field
        (Json.arr ((splitTrimDropEmpty s).map (coerceListElem c.fieldType))))]) := by
  have hopne : op ≠ "" := by rcases hin with h | h <;> simp [h]
  have hex1 : op ≠ "#exists" := by rcases hin with h | h <;> simp [h]
  have hex2 : op ≠ "#notExist" := by rcases hin with h | h <;> simp [h]
  constructor
  · unfold validCondition
    rw [if_neg hfield, if_neg (by simp [hlist, hisList]),
      if_neg (by simp [hop, hopne]), if_neg (by simp [hop, hex1, hex2])]
    simp [hval, hs]
  · unfold compileCondition
    rw [if_neg (by simp [hlist])]
    simp only [hop, operatorKey]
    rw [if_neg (by simp [hex1, hex2]), if_pos hin, hval, parseInValue_str]

/-- Witness for C4: raw value "a, b ,c" on the string-typed city field
coerces to the ordered string sequence a, b, c and compiles to
`{"#in":{"city":["a","b","c"]}}`. -/
theorem c4_inSplitCompile_witness :
    validCondition exInCondition = true ∧
    compileCondition exInCondition =
      some (Json.obj [("#in", Json.obj [("city",
        Json.arr [Json.str "a", Json.str "b", Json.str "c"])])]) ∧
    buildFilterString [exInCondition] "and" =
      "\x7b\"#in\":\x7b\"city\":[\"a\",\"b\",\"c\"]\x7d\x7d" := by
  have h := c4_inSplitCompile exInCondition "#in" "a, b ,c" (by decide) (by decide)
    (by decide) rfl (Or.inl rfl) rfl (by decide)
  refine ⟨h.1, ?_, rfl⟩
  rw [h.2]
  rfl

/-- C10: a flat #in/#notIn condition whose value is a non-empty string made
of only commas and whitespace passes the validity filter, its split-trim-drop
coercion yields the empty array, and it compiles to
{operatorCode: nestedFieldObject} with the empty array as leaf rather than
being dropped. -/
theorem c10_inEmptyCompile (c : Condition) (op s : String)
    (hfield : c.field ≠ "")
    (hlist : c.fieldType ≠ some "list") (hisList : c.isList = false)
    (hop : c.operator = some op) (hin : op = "#in" ∨ op = "#notIn")
    (hval : c.value = JsValue.str s) (hs : s ≠ "")
    (honly : ∀ ch ∈ s.data, ch = Char.ofNat 44 ∨ jsIsWhitespaceChar ch = true) :
    validCondition c = true ∧
    compileCondition c =
      some (Json.obj [(op, buildNestedObject c.field (Json.arr []))]) := by
  have hopne : op ≠ "" := by rcases hin with h | h <;> simp [h]
  have hex1 : op ≠ "#exists" := by rcases hin with h | h <;> simp [h]
  have hex2 : op ≠ "#notExist" := by rcases hin with h | h <;> simp [h]
  constructor
  · unfold validCondition
    rw [if_neg hfield, if_neg (by simp [hlist, hisList]),
      if_neg (by simp [hop, hopne]), if_neg (by simp [hop, hex1, hex2])]
    simp [hval, hs]
  · unfold compileCondition
    rw [if_neg (by simp [hlist])]
    simp only [hop, operatorKey]
    rw [if_neg (by simp [hex1, hex2]), if_pos hin, hval, parseInValue_str,
      splitTrimDropEmpty_eq_nil s honly]
    rfl

/-- Witness for C10: the condition city #in " , ," is retained (its value is
a non-empty string) and compiles to `{"#in":{"city":[]}}` with the empty
value list. -/
theorem c10_inEmptyCompile_witness :
    validCondition exInEmptyCondition = true ∧
    compileCondition exInEmptyCondition =
      some (Json.obj [("#in", Json.obj [("city", Json.arr [])])]) ∧
    buildFilterString [exInEmptyCondition] "and" =
      "\x7b\"#in\":\x7b\"city\":[]\x7d\x7d" := by
  have h := c10_inEmptyCompile exInEmptyCondition "#in" " , ," (by decide) (by decide)
    (by decide) rfl (Or.inl rfl) rfl (by decide) (by decide)
  exact ⟨h.1, h.2, rfl⟩

/-- C6: when exactly one node survives compilation the serialized root is
that node verbatim, and when two or more survive the root is an #or wrapper
for logic 'or' and an #and wrapper for any other logic value, with the
nodes in exactly the surviving-condition order of the input sequence. -/
theorem c6_combineNodes (conditions : List Condition) (logic : String) :
    (∀ n, ((conditions.filter validCondition).map compileCondition).filterMap id = [n] →
        buildFilterString conditions logic = jsonStringify n) ∧
    (∀ n₁ n₂ rest,
        ((conditions.filter validCondition).map compileCondition).filterMap id =
          n₁ :: n₂ :: rest →
        buildFilterString conditions logic =
          jsonStringify (Json.obj [((if logic = "or" then "#or" else "#and"),
            Json.arr (n₁ :: n₂ :: rest))])) := by
  constructor
  · intro n h
    have hl : conditions.filter validCondition ≠ [] := by
      intro he
      rw [he] at h
      simp at h
    rw [buildFilterString_eq_fromValid]
    simp only [buildFilterFromValid]
    rw [if_neg (by simp [List.isEmpty_iff, hl]), h]
  · intro n₁ n₂ rest h
    have hl : conditions.filter validCondition ≠ [] := by
      intro he
      rw [he] at h
      simp at h
    rw [buildFilterString_eq_fromValid]
    simp only [buildFilterFromValid]
    rw [if_neg (by simp [List.isEmpty_iff, hl]), h]

/-- Witness for C6: one surviving condition serializes verbatim, and the
two-condition sets combine under #and and #or preserving input order. -/
theorem c6_combineNodes_witness :
    buildFilterString [exAnaCondition] "and" =
      jsonStringify (Json.obj [("firstName", Json.str "Ana")]) ∧
    buildFilterString [exAnaCondition, exGtCondition] "and" =
      jsonStringify (Json.obj [("#and", Json.arr
        [Json.obj [("firstName", Json.str "Ana")],
         Json.obj [("#gt", Json.obj [("age", Json.num 30)])]])]) ∧
    buildFilterString [exAnaCondition, exGtCondition] "or" =
      jsonStringify (Json.obj [("#or", Json.arr
        [Json.obj [("firstName", Json.str "Ana")],
         Json.obj [("#gt", Json.obj [("age", Json.num 30)])]])]) := by
  refine ⟨?_, ?_, ?_⟩
  · exact (c6_combineNodes [exAnaCondition] "and").1
      (Json.obj [("firstName", Json.str "Ana")]) rfl
  · exact ((c6_combineNodes [exAnaCondition, exGtCondition] "and").2
      (Json.obj [("firstName", Json.str "Ana")])
      (Json.obj [("#gt", Json.obj [("age", Json.num 30)])]) [] rfl).trans (by rfl)
  · exact ((c6_combineNodes [exAnaCondition, exGtCondition] "or").2
      (Json.obj [("firstName", Json.str "Ana")])
      (Json.obj [("#gt", Json.obj [("age", Json.num 30)])]) [] rfl).trans (by rfl)

theorem claimIncomplete_invalid (c : Condition) (h : claimIncomplete c) :
    validCondition c = false := by
  unfold validCondition
  by_cases hf : c.field = ""
  · rw [if_pos hf]
  rw [if_neg hf]
  rcases h with ⟨⟨hft, hlist⟩, hcase⟩ | ⟨hl, hall⟩
  · rw [if_neg (by simp [hft, hlist])]
    rcases hcase with h1 | h1 | h1 | ⟨hv, hne1, hne2⟩
    · exact absurd h1 hf
    · rw [if_pos (Or.inl h1)]
    · rw [if_pos (Or.inr h1)]
    · by_cases hoe : c.operator = none ∨ c.operator = some ""
      · rw [if_pos hoe]
      · rw [if_neg hoe, if_neg (by simp [hne1, hne2])]
        rcases hv with hv | hv <;> simp [hv]
  · rw [if_pos hl]
    cases hlc : c.listConditions with
    | none => rfl
    | some lcs =>
      show (if lcs.length = 0 then false else lcs.any validListItem) = false
      by_cases hlen : lcs.length = 0
      · rw [if_pos hlen]
      · rw [if_neg hlen]
        rw [List.any_eq_false]
        intro lc hmem
        have := hall lc (by rw [hlc]; exact hmem)
        unfold validListItem
        simpa using this

/-- C7: a FilterSet in which every condition is incomplete (flat with empty
field, empty operator, or empty/undefined value under a non-existence
operator; list with no item condition whose field, operator and value are
all non-empty) compiles to the pair ("", "") — not "{}" and not an error —
and an incomplete condition contributes no node even when other conditions
survive. -/
theorem c7_incompleteConditions :
    (∀ (conditions : List Condition) (logic : String),
        (∀ c ∈ conditions, claimIncomplete c) →
        buildAndEncodeFilter conditions logic = ("", "")) ∧
    (∀ (pre post : List Condition) (c : Condition) (logic : String),
        claimIncomplete c →
        buildFilterString (pre ++ c :: post) logic =
          buildFilterString (pre ++ post) logic) := by
  have hbf : ∀ (conditions : List Condition) (logic : String),
      (∀ c ∈ conditions, claimIncomplete c) → buildFilterString conditions logic = "" := by
    intro conditions logic h
    rw [buildFilterString_eq_fromValid]
    have hnil : conditions.filter validCondition = [] :=
      List.filter_eq_nil_iff.mpr (fun c hc => by simp [claimIncomplete_invalid c (h c hc)])
    rw [hnil]
    rfl
  constructor
  · intro conditions logic h
    simp only [buildAndEncodeFilter]
    rw [hbf conditions logic h]
    rfl
  · intro pre post c logic h
    rw [buildFilterString_eq_fromValid, buildFilterString_eq_fromValid]
    congr 1
    rw [List.filter_append, List.filter_append]
    congr 1
    simp [List.filter_cons, claimIncomplete_invalid c h]

/-- Witness for C7: a set of two incomplete conditions (one with empty
field, one with empty value) compiles to ("",""), and inserting the
empty-value condition after a surviving condition leaves the output
unchanged. -/
theorem c7_incompleteConditions_witness :
    buildAndEncodeFilter [exNoFieldCondition, exNoValueCondition] "and" = ("", "") ∧
    buildFilterString [exAnaCondition, exNoValueCondition] "and" =
      buildFilterString [exAnaCondition] "and" := by
  have hNoField : claimIncomplete exNoFieldCondition :=
    Or.inl ⟨⟨by decide, rfl⟩, Or.inl rfl⟩
  have hNoValue : claimIncomplete exNoValueCondition :=
    Or.inl ⟨⟨by decide, rfl⟩,
      Or.inr (Or.inr (Or.inr ⟨Or.inr rfl, by decide, by decide⟩))⟩
  constructor
  · refine c7_incompleteConditions.1 _ "and" ?_
    intro c hc
    rcases List.mem_cons.mp hc with rfl | hc2
    · exact hNoField
    · rcases List.mem_cons.mp hc2 with rfl | hc3
      · exact hNoValue
      · simp at hc3
  · exact c7_incompleteConditions.2 [exAnaCondition] [] exNoValueCondition "and" hNoValue

/-- C8: for every attribute type string that lower-cases to integer,
decimal, number, float or double, the operator-selection function returns a
list containing none of #contains, #notContain, #startsWith, #endsWith. -/
theorem c8_numericOperators (s : String)
    (hs : jsToLowerCase s = "integer" ∨ jsToLowerCase s = "decimal" ∨
      jsToLowerCase s = "number" ∨ jsToLowerCase s = "float" ∨ jsToLowerCase s = "double")
    (op : FilterOperator) (hop : op ∈ getOperatorsForType s) :
    op.value ≠ "#contains" ∧ op.value ≠ "#notContain" ∧
    op.value ≠ "#startsWith" ∧ op.value ≠ "#endsWith" := by
  unfold getOperatorsForType at hop
  by_cases hc : op.value ∈ stringOnlyOperators
  · rcases hs with h | h | h | h | h <;>
      (rw [h] at hop; have hpred := (List.mem_filter.mp hop).2; simp [hc] at hpred)
  · simp [stringOnlyOperators] at hc
    exact ⟨hc.1, hc.2.1, hc.2.2.1, hc.2.2.2⟩

/-- Witness for C8: the type label "NUMBER" lower-cases to number, the #eq
descriptor is among the operators selected for it, and its code is none of
the four string-only operators. -/
theorem c8_numericOperators_witness :
    exEqOperator.value ≠ "#contains" ∧ exEqOperator.value ≠ "#notContain" ∧
    exEqOperator.value ≠ "#startsWith" ∧ exEqOperator.value ≠ "#endsWith" :=
  c8_numericOperators "NUMBER" (Or.inr (Or.inr (Or.inl (by decide))))
    exEqOperator (by decide)

/-- C9 counterexample, refuting the claim on two points. First, sanitizing
the key "ab é" trims first (a no-op here) and then removes the non-ASCII
character é, exposing the interior space as a trailing one — the result
"ab " ends in whitespace, refuting "no leading or trailing whitespace for
every input". Second, the attribute-fetch requests of attributeFetcher.js
build their Authorization header from the raw key with no sanitization at
all: for the key " key" they send "App  key", not "App " followed by the
sanitized key. -/
theorem c9_sanitizeCounterexample :
    sanitizeApiKey "ab é" = "ab " ∧
    (sanitizeApiKey "ab é").data.getLast? = some (Char.ofNat 32) ∧
    jsIsWhitespaceChar (Char.ofNat 32) = true ∧
    fetchStandardAttributesAuthHeader " key" = "App  key" ∧
    fetchStandardAttributesAuthHeader " key" ≠ "App " ++ sanitizeApiKey " key" ∧
    fetchCustomAttributesAuthHeader " key" ≠ "App " ++ sanitizeApiKey " key" := by
  refine ⟨by decide, by decide, by decide, by decide, by decide, by decide⟩

/-- C9 amended: sanitizeApiKey strips leading/trailing whitespace first and
then removes every non-ASCII character, so its result contains only ASCII
characters (whitespace exposed by the removal can remain at the ends); the
query-test request (testFilterQuery, apiClient.js) builds its Authorization
header as "App " followed by the sanitized key, while the attribute-fetch
requests (fetchStandardAttributes and fetchCustomAttributes of
attributeFetcher.js) build theirs from the raw, unsanitized key. -/
theorem c9_sanitizeHeaders (apiKey : String) :
    (sanitizeApiKey apiKey).data.all isAsciiChar = true ∧
    sanitizeApiKey apiKey = removeNonAsciiChars (jsTrim apiKey) ∧
    testFilterQueryAuthHeader apiKey = "App " ++ sanitizeApiKey apiKey ∧
    fetchStandardAttributesAuthHeader apiKey = "App " ++ apiKey ∧
    fetchCustomAttributesAuthHeader apiKey = "App " ++ apiKey := by
  refine ⟨?_, ?_, rfl, rfl, rfl⟩
  · unfold sanitizeApiKey
    by_cases h : apiKey = ""
    · rw [if_pos h]
      rfl
    · rw [if_neg h]
      simp only [removeNonAsciiChars]
      rw [List.all_eq_true]
      intro c hc
      exact (List.mem_filter.mp hc).2
  · unfold sanitizeApiKey
    by_cases h : apiKey = ""
    · rw [if_pos h, h]
      rfl
    · rw [if_neg h]

end ApiQueryBuilder
